import Mathlib

/-!
# Verification of the Pomodoro timer engine

A shallow embedding of the timestamp-based countdown timer component
(`PomodoroTimer`): its in-memory state, the persisted snapshot
(`StoredTimerState` in `localStorage`), the tick / restore / finish paths and
the user-facing handlers (`handleStart`, `handlePause`, `handleReset`,
`handleDurationChange`, `handleSaveManual`), together with the session
records inserted into the remote `timer_sessions` table.

Conventions of the embedding:
* JavaScript `number` values carrying times and millisecond quantities are
  modelled as `Int` (all arithmetic involved is integral).
* `Date.now()` is an explicit `now : Int` argument on every operation that
  reads the clock.
* The remote insert (`supabase.from('timer_sessions').insert`) is modelled by
  an explicit outcome argument `ok : Bool`; successful inserts append the
  record to `World.records`, a failed insert leaves it unchanged.
* React state setters are modelled as sequential field updates (the handlers
  update state and then persist, as the spec's atomicity section describes).
* An unreadable / unparseable snapshot is modelled as `none`; a readable but
  version-mismatched snapshot is a `some` whose `version` field differs from
  `STORAGE_VERSION`.
-/

namespace Pomodoro

/-- Source `clamp(n, min, max) = Math.max(min, Math.min(max, n))`. -/
def clamp (n lo hi : Int) : Int := max lo (min hi n)

/-- Ceiling division: `Math.ceil(a / b)` for integer `a` and positive integer `b`,
as used in `msToMinSec` (`b = 1000`) and `handleSaveManual` (`b = 60000`). -/
def jsCeilDiv (a b : Int) : Int := Int.fdiv (a + b - 1) b

/-- Source `msToMinSec`: remaining milliseconds to displayed (minutes, seconds);
`totalSec = Math.max(0, Math.ceil(ms / 1000))`, `m = floor(totalSec / 60)`,
`s = totalSec % 60`. -/
def msToMinSec (ms : Int) : Int × Int :=
  let totalSec : Int := max 0 (jsCeilDiv ms 1000)
  (Int.fdiv totalSec 60, Int.emod totalSec 60)

/-- The `version` constant of the persisted snapshot schema. -/
def STORAGE_VERSION : Nat := 1

/-- The persisted `StoredTimerState` snapshot (`updatedAt`, pure
diagnostics, is omitted: it is never read back). -/
structure Snapshot where
  version : Nat
  isRunning : Bool
  endAt : Option Int
  remainingMs : Int
  initialMinutes : Int
  sessionName : String
  category : String
  selectedLectureId : String
  finished : Bool
  autoSaved : Bool
  deriving Repr, DecidableEq

/-- The in-memory component state: React state hooks plus the refs
`endAtRef` and `autoSavedRef`. -/
structure Engine where
  initialMinutes : Int
  remainingMs : Int
  isRunning : Bool
  isFinished : Bool
  endAt : Option Int
  autoSaved : Bool
  isSaving : Bool
  sessionName : String
  category : String
  selectedLectureId : String
  deriving Repr, DecidableEq

/-- A row inserted into `timer_sessions` (`user_id` and `completed_at`
belong to the ambient environment and are omitted). -/
structure SessionRecord where
  name : String
  duration_minutes : Int
  category : String
  lecture_id : Option String
  deriving Repr, DecidableEq

/-- The whole observable world: component state, the `localStorage`
snapshot, and the successfully inserted session records. -/
structure World where
  engine : Engine
  storage : Option Snapshot
  records : List SessionRecord
  deriving Repr, DecidableEq

/-- Normalization `(category || 'General').trim() || 'General'` — the category string
normalization used both when building a record and when restoring. -/
def normCategory (c : String) : String :=
  let t := (if c = "" then "General" else c).trim
  if t = "" then "General" else t

/-- Source `selectedLectureId && selectedLectureId !== 'none' ? selectedLectureId : null`. -/
def lectureIdToSave (id : String) : Option String :=
  if id ≠ "" ∧ id ≠ "none" then some id else none

/-- The base snapshot `writeStorage` builds from the current state before
applying its partial overrides. -/
def mkSnap (e : Engine) : Snapshot :=
  { version := STORAGE_VERSION
    isRunning := e.isRunning
    endAt := e.endAt
    remainingMs := e.remainingMs
    initialMinutes := e.initialMinutes
    sessionName := e.sessionName
    category := e.category
    selectedLectureId := e.selectedLectureId
    finished := e.isFinished
    autoSaved := e.autoSaved }

/-- Source `writeStorage`: persist a snapshot (the call sites build
`mkSnap` of the current state with the source's explicit overrides). -/
def writeStorage (w : World) (s : Snapshot) : World :=
  { w with storage := some s }

/-- Source `readStorage`: `none` for an absent or unparseable blob, and a parsed
snapshot is rejected when its `version` differs from `STORAGE_VERSION`. -/
def readStorage (raw : Option Snapshot) : Option Snapshot :=
  match raw with
  | none => none
  | some s => if s.version ≠ STORAGE_VERSION then none else some s

/-- The record built by `autoSaveAtFinish`: a completed session is recorded
with `duration_minutes = initialMinutes`. -/
def autoSaveRecord (e : Engine) : SessionRecord :=
  { name := if e.sessionName = "" then "Pomodoro Session" else e.sessionName
    duration_minutes := e.initialMinutes
    category := normCategory e.category
    lecture_id := lectureIdToSave e.selectedLectureId }

/-- Source `autoSaveAtFinish`: guarded by `initialMinutes <= 0` and `isSaving`;
inserts the completion record; on failure flips `autoSaved` back to `false`
(in the ref and in storage) so a manual retry remains possible. -/
def autoSaveAtFinish (w : World) (ok : Bool) : World :=
  if w.engine.initialMinutes ≤ 0 then w
  else if w.engine.isSaving then w
  else
    let w₁ : World := { w with engine.isSaving := true }
    let w₂ : World :=
      if ok then
        let w' : World := { w₁ with records := w₁.records ++ [autoSaveRecord w₁.engine] }
        writeStorage w' { mkSnap w'.engine with autoSaved := true, finished := true }
      else
        let w' : World := { w₁ with engine.autoSaved := false }
        writeStorage w' { mkSnap w'.engine with autoSaved := false }
    { w₂ with engine.isSaving := false }

/-- The first half of `finalizeFinish`, up to and including setting
`autoSavedRef.current = true` — everything that happens before the
submission call `autoSaveAtFinish` is issued.  Marks the UI finished,
persists `finished: true, isRunning: false, endAt: null, remainingMs: 0`,
and (when the guard passes) flips `autoSaved` to `true` and persists it. -/
def finalizeFinishMark (w : World) : World :=
  let w₁ : World := { w with engine.isFinished := true }
  let w₂ : World := writeStorage w₁
    { mkSnap w₁.engine with
        finished := true, isRunning := false, endAt := none, remainingMs := 0 }
  if !w₂.engine.autoSaved then
    let w₃ : World := { w₂ with engine.autoSaved := true }
    writeStorage w₃ { mkSnap w₃.engine with autoSaved := true }
  else w₂

/-- Source `finalizeFinish`: mark finished, attempt the (best-effort, ignored)
sound, and — once per lifecycle, guarded by `autoSaved` — run the
auto-save. -/
def finalizeFinish (w : World) (ok : Bool) : World :=
  if !w.engine.autoSaved then autoSaveAtFinish (finalizeFinishMark w) ok
  else finalizeFinishMark w

/-- The interval callback of the tick engine (also the body of the
`visibilitychange` handler): recompute `msLeft = endAt - now`; at or past
zero, finish; otherwise refresh the displayed `remainingMs`. -/
def tick (w : World) (now : Int) (ok : Bool) : World :=
  match w.engine.endAt with
  | none => w
  | some endAt =>
    let msLeft := endAt - now
    if msLeft ≤ 0 then
      finalizeFinish
        { w with engine := { w.engine with remainingMs := 0, isRunning := false, endAt := none } }
        ok
    else
      { w with engine.remainingMs := msLeft }

/-- The clean state installed when no snapshot can be restored. -/
def defaultEngine (e : Engine) : Engine :=
  { e with
      endAt := none
      autoSaved := false
      isRunning := false
      isFinished := false
      initialMinutes := 25
      remainingMs := 25 * 60 * 1000
      sessionName := ""
      category := "General"
      selectedLectureId := "none" }

/-- The restore-on-mount effect: reconcile the persisted snapshot with the
wall clock `now`.  Absent/unreadable/version-mismatched snapshots fall back
to the defaults; a running snapshot is finished or resumed according to
`msLeft = endAt - now`; a non-running snapshot restores `remainingMs` and
finalizes when `finished && !autoSaved`.

The state setters invoked by the effect (`setInitialMinutes`,
`setSessionName`, `setCategory`, `setSelectedLectureId`, `setRemainingMs`,
`setIsRunning`, `setIsFinished`) do not commit until the effect yields, and
`finalizeFinish` / `autoSaveAtFinish` are closures over the render that
installed the effect: when the restore path triggers the completion
handling, the submission (and the snapshot bases it writes) sees the
pre-restore closure fields — in particular the record carries the prior
render's `initialMinutes`, name and category, not the snapshot's — while
only the refs (`autoSavedRef`, `endAtRef`) are already updated.  The
restored values, and `setIsFinished(true)` queued last by
`finalizeFinish`, commit afterwards. -/
def restoreEffect (w : World) (now : Int) (ok : Bool) : World :=
  match readStorage w.storage with
  | none => { w with engine := defaultEngine w.engine }
  | some stored =>
    let commit : Engine → Engine := fun e =>
      { e with
          initialMinutes := clamp stored.initialMinutes 1 999
          sessionName := stored.sessionName
          category := normCategory stored.category
          selectedLectureId := stored.selectedLectureId }
    match stored.isRunning, stored.endAt with
    | true, some endAt =>
      let msLeft := endAt - now
      if msLeft ≤ 0 then
        let w₁ : World :=
          { w with engine := { w.engine with autoSaved := stored.autoSaved, endAt := none } }
        let w₂ : World := finalizeFinish w₁ ok
        { w₂ with engine :=
            { commit w₂.engine with
                remainingMs := 0, isRunning := false, isFinished := true } }
      else
        { w with engine :=
            { commit w.engine with
                autoSaved := stored.autoSaved, endAt := some endAt,
                remainingMs := msLeft, isRunning := true,
                isFinished := stored.finished } }
    | _, _ =>
      if stored.finished ∧ !stored.autoSaved then
        let w₁ : World :=
          { w with engine := { w.engine with autoSaved := stored.autoSaved, endAt := none } }
        let w₂ : World := finalizeFinish w₁ ok
        { w₂ with engine :=
            { commit w₂.engine with
                remainingMs := max 0 stored.remainingMs, isRunning := false,
                isFinished := true } }
      else
        { w with engine :=
            { commit w.engine with
                autoSaved := stored.autoSaved, endAt := none,
                remainingMs := max 0 stored.remainingMs, isRunning := false,
                isFinished := stored.finished } }

/-- Source `handleStart`: rejected at `remainingMs <= 0`; starting from a
non-running state clears `autoSaved` and `finished` for the new lifecycle;
derives `endAt = now + remainingMs` when absent; persists. -/
def handleStart (w : World) (now : Int) : World :=
  if w.engine.remainingMs ≤ 0 then w
  else
    let e₀ : Engine :=
      if !w.engine.isRunning then { w.engine with autoSaved := false, isFinished := false }
      else w.engine
    let e₁ : Engine :=
      match e₀.endAt with
      | none => { e₀ with endAt := some (now + e₀.remainingMs) }
      | some _ => e₀
    let e₂ : Engine := { e₁ with isRunning := true }
    writeStorage { w with engine := e₂ }
      { mkSnap e₂ with
          isRunning := true, endAt := e₂.endAt, finished := false, autoSaved := e₂.autoSaved }

/-- Source `handlePause`: freeze `remainingMs = max(0, endAt - now)`, clear
`endAt`, stop running, persist. -/
def handlePause (w : World) (now : Int) : World :=
  if !w.engine.isRunning then w
  else
    let msLeft : Int :=
      match w.engine.endAt with
      | some endAt => max 0 (endAt - now)
      | none => w.engine.remainingMs
    let e : Engine :=
      { w.engine with endAt := none, remainingMs := msLeft, isRunning := false }
    writeStorage { w with engine := e }
      { mkSnap e with isRunning := false, endAt := none, remainingMs := msLeft }

/-- Source `handleReset`: stop, restore the full configured duration, clear the
lifecycle flags, persist. -/
def handleReset (w : World) : World :=
  let e : Engine :=
    { w.engine with
        endAt := none
        isRunning := false
        remainingMs := w.engine.initialMinutes * 60 * 1000
        isFinished := false
        autoSaved := false }
  writeStorage { w with engine := e }
    { mkSnap e with
        isRunning := false, endAt := none,
        remainingMs := e.initialMinutes * 60 * 1000,
        finished := false, autoSaved := false }

/-- Source `handleDurationChange`: rejected while running; otherwise clamp the new
minutes to `[1, 999]`, reset the remaining time accordingly, clear the
lifecycle flags, persist. -/
def handleDurationChange (w : World) (newMinutes : Int) : World :=
  if w.engine.isRunning then w
  else
    let safe := clamp newMinutes 1 999
    let e : Engine :=
      { w.engine with
          initialMinutes := safe
          remainingMs := safe * 60 * 1000
          isFinished := false
          autoSaved := false }
    writeStorage { w with engine := e }
      { mkSnap e with
          initialMinutes := safe, remainingMs := safe * 60 * 1000,
          finished := false, autoSaved := false, isRunning := false, endAt := none }

/-- The record built by `handleSaveManual` for a partial session of
`totalMinutes` whole minutes. -/
def manualSaveRecord (e : Engine) (totalMinutes : Int) : SessionRecord :=
  { name := if e.sessionName = "" then "Pomodoro Session" else e.sessionName
    duration_minutes := totalMinutes
    category := normCategory e.category
    lecture_id := lectureIdToSave e.selectedLectureId }

/-- Source `handleSaveManual`: rejected when `autoSaved` or when
`elapsedMs = initialMinutes * 60000 - remainingMs < 60000`; else submit
`Math.ceil(elapsedMs / 60000)` minutes and, on success, clear the session
name, set `autoSaved`, persist it, and perform a full reset. -/
def handleSaveManual (w : World) (ok : Bool) : World :=
  if w.engine.autoSaved then w
  else
    let elapsedMs := w.engine.initialMinutes * 60 * 1000 - w.engine.remainingMs
    if elapsedMs < 60 * 1000 then w
    else
      let totalMinutes := jsCeilDiv elapsedMs 60000
      let w₁ : World := { w with engine.isSaving := true }
      let w₂ : World :=
        if ok then
          let wA : World :=
            { w₁ with records := w₁.records ++ [manualSaveRecord w₁.engine totalMinutes] }
          let wB : World := { wA with engine.sessionName := "" }
          let wC : World := { wB with engine.autoSaved := true }
          let wD : World := writeStorage wC { mkSnap wC.engine with autoSaved := true }
          handleReset wD
        else w₁
      { w₂ with engine.isSaving := false }

/-! ## Traces of user operations

For the drift-freedom property, runs of the engine are modelled as finite
sequences of timestamped events: `start` / `pause` presses and deliveries of
the periodic tick callback.  `runTrace` folds the events over a world while
accumulating the wall-clock time spent in the `Running` state. -/

/-- A timestamped user-visible event: a start (or resume) press, a pause
press, or a delivery of the periodic tick callback. -/
inductive TEvent where
  | start : Int → TEvent
  | pause : Int → TEvent
  | tick : Int → TEvent
  deriving Repr, DecidableEq

/-- The wall-clock instant at which an event occurs. -/
def TEvent.time : TEvent → Int
  | .start t => t
  | .pause t => t
  | .tick t => t

/-- Apply one event to the world (tick submissions are taken to succeed;
the submission outcome never affects timing fields). -/
def applyTEvent (w : World) : TEvent → World
  | .start t => handleStart w t
  | .pause t => handlePause w t
  | .tick t => tick w t true

/-- Fold a list of events over the world, tracking the time of the last
event and the accumulated wall-clock milliseconds spent `Running`.
Returns (final world, time of last event, total running time). -/
def runTrace (w : World) (last spent : Int) : List TEvent → World × Int × Int
  | [] => (w, last, spent)
  | ev :: evs =>
    runTrace (applyTEvent w ev) ev.time
      (if w.engine.isRunning then spent + (ev.time - last) else spent) evs

/-- Well-formedness of a trace: event times are nondecreasing and no event
is delivered after the countdown's current deadline has passed (the scope
of the drift property: sampling happens before natural completion; an event
at exactly the deadline is allowed and finishes the session). -/
def traceOK (w : World) (last : Int) : List TEvent → Prop
  | [] => True
  | ev :: evs =>
    last ≤ ev.time
      ∧ (∀ t, w.engine.endAt = some t → ev.time ≤ t)
      ∧ traceOK (applyTEvent w ev) ev.time evs

/-- The inductive invariant behind the drift-freedom property, relative to
the configured total duration `total` and the time `last` of the last
processed event: while not running, `remainingMs` holds exactly the
not-yet-consumed budget; while running, the deadline `endAt` is exactly
`last` plus the remaining budget. -/
def driftInv (e : Engine) (last spent total : Int) : Prop :=
  (e.isRunning = false → e.endAt = none ∧ total - spent = e.remainingMs)
    ∧ (e.isRunning = true → ∃ t, e.endAt = some t ∧ t - last = total - spent)

/-! ## Concrete sample states

Concrete worlds used to evaluate the engine at explicit inputs. -/

/-- A freshly mounted engine: 25-minute default, idle, nothing saved. -/
def sampleEngine : Engine :=
  { initialMinutes := 25
    remainingMs := 25 * 60 * 1000
    isRunning := false
    isFinished := false
    endAt := none
    autoSaved := false
    isSaving := false
    sessionName := ""
    category := "General"
    selectedLectureId := "none" }

/-- A fresh idle world: default engine, no snapshot, no records. -/
def sampleWorld : World :=
  { engine := sampleEngine, storage := none, records := [] }

/-- A world mid-countdown: a 25-minute session started at epoch 0. -/
def sampleRunningWorld : World := handleStart sampleWorld 0

/-- A snapshot of a paused session with one minute elapsed. -/
def samplePausedSnap : Snapshot :=
  { version := 1
    isRunning := false
    endAt := none
    remainingMs := 24 * 60 * 1000
    initialMinutes := 25
    sessionName := ""
    category := "General"
    selectedLectureId := "none"
    finished := false
    autoSaved := false }

/-- Predicate: any readable persisted snapshot is already marked
`autoSaved`, so re-observing it can never re-submit. -/
def safeStorage (w : World) : Prop :=
  ∀ s, readStorage w.storage = some s → s.autoSaved = true

/-- The basic numeric invariant of the engine state: the remaining time is
never negative and the configured duration is at least one minute. -/
def engineInv (e : Engine) : Prop :=
  0 ≤ e.remainingMs ∧ 1 ≤ e.initialMinutes

/-- Final world of a trace run started with zero accumulated running time. -/
def runWorld (w : World) (t0 : Int) (evs : List TEvent) : World :=
  (runTrace w t0 0 evs).1

/-- Time of the last processed event of a trace run. -/
def runLast (w : World) (t0 : Int) (evs : List TEvent) : Int :=
  (runTrace w t0 0 evs).2.1

/-- Total wall-clock milliseconds spent `Running` over a trace run. -/
def runSpent (w : World) (t0 : Int) (evs : List TEvent) : Int :=
  (runTrace w t0 0 evs).2.2

/-- The spec's pause/resume scenario world: a 15-minute configured timer. -/
def samplePomodoro15 : World :=
  { engine := { sampleEngine with initialMinutes := 15, remainingMs := 15 * 60 * 1000 }
    storage := none
    records := [] }

/-- The spec's pause/resume scenario trace: start at 0, pause after 5
simulated minutes, resume at 7 minutes, pause again after 3 more minutes. -/
def sampleTrace : List TEvent :=
  [TEvent.start 0, TEvent.pause 300000, TEvent.start 420000, TEvent.pause 600000]

/-! ## Basic lemmas about the ceiling division -/

/-- Bounds characterizing rounding up to whole minutes. -/
lemma jsCeilDiv_bounds_60000 (a : Int) :
    60000 * (jsCeilDiv a 60000 - 1) < a ∧ a ≤ 60000 * jsCeilDiv a 60000 := by
  unfold jsCeilDiv
  rw [Int.fdiv_eq_ediv _ (by norm_num)]
  omega

/-- Bounds characterizing rounding up to whole seconds. -/
lemma jsCeilDiv_bounds_1000 (a : Int) :
    1000 * (jsCeilDiv a 1000 - 1) < a ∧ a ≤ 1000 * jsCeilDiv a 1000 := by
  unfold jsCeilDiv
  rw [Int.fdiv_eq_ediv _ (by norm_num)]
  omega

/-! ## Lemmas about the completion path -/

/-- Completion handling never touches the timer's timing fields: it only
marks `finished`, manages `autoSaved` / `isSaving`, records and storage. -/
lemma finalizeFinish_engine_fields (w : World) (ok : Bool) :
    (finalizeFinish w ok).engine.remainingMs = w.engine.remainingMs
    ∧ (finalizeFinish w ok).engine.isRunning = w.engine.isRunning
    ∧ (finalizeFinish w ok).engine.endAt = w.engine.endAt
    ∧ (finalizeFinish w ok).engine.initialMinutes = w.engine.initialMinutes
    ∧ (finalizeFinish w ok).engine.isFinished = true
    ∧ (finalizeFinish w ok).engine.isSaving = w.engine.isSaving := by
  simp only [finalizeFinish, finalizeFinishMark, autoSaveAtFinish, writeStorage]
  split_ifs <;> simp_all

/-- With `autoSaved` already set, completion handling submits nothing and
keeps the guard up. -/
lemma finalizeFinish_guarded (w : World) (ok : Bool)
    (h : w.engine.autoSaved = true) :
    (finalizeFinish w ok).records = w.records
    ∧ (finalizeFinish w ok).engine.autoSaved = true := by
  simp [finalizeFinish, finalizeFinishMark, autoSaveAtFinish, writeStorage, h]

/-- Case analysis of one run of the completion handling: either no record
is submitted, or exactly one is — and in the latter case the guard is up
both in memory and in the persisted snapshot. -/
lemma finalizeFinish_cases (w : World) (ok : Bool) :
    (finalizeFinish w ok).records = w.records
    ∨ ((finalizeFinish w ok).records.length = w.records.length + 1
        ∧ (finalizeFinish w ok).engine.autoSaved = true
        ∧ safeStorage (finalizeFinish w ok)) := by
  by_cases hA : w.engine.autoSaved = true
  · exact Or.inl (finalizeFinish_guarded w ok hA).1
  · replace hA : w.engine.autoSaved = false := by
      cases h : w.engine.autoSaved <;> simp_all
    simp only [finalizeFinish, finalizeFinishMark, autoSaveAtFinish,
      writeStorage, safeStorage, readStorage, mkSnap, hA]
    split_ifs <;>
      simp_all [STORAGE_VERSION, List.length_append]

/-- One run of the completion handling submits at most one record. -/
lemma finalizeFinish_le (w : World) (ok : Bool) :
    (finalizeFinish w ok).records.length ≤ w.records.length + 1 := by
  rcases finalizeFinish_cases w ok with h | ⟨h, _⟩
  · rw [h]; exact Nat.le_succ _
  · rw [h]

/-- A successful completion handling from an unguarded, idle-save state
submits exactly one record carrying the configured duration, and raises the
guard. -/
lemma finalizeFinish_success (w : World)
    (hA : w.engine.autoSaved = false) (hS : w.engine.isSaving = false)
    (hI : 1 ≤ w.engine.initialMinutes) :
    ∃ r, (finalizeFinish w true).records = w.records ++ [r]
      ∧ r.duration_minutes = w.engine.initialMinutes
      ∧ (finalizeFinish w true).engine.autoSaved = true := by
  have hI' : ¬ (w.engine.initialMinutes ≤ 0) := by omega
  simp [finalizeFinish, finalizeFinishMark, autoSaveAtFinish,
    writeStorage, autoSaveRecord, hA, hS, hI']

/-- A restore that reads a snapshot already marked `autoSaved` (or no
snapshot at all) never submits. -/
lemma restore_safe (w : World) (n : Int) (ok : Bool) (h : safeStorage w) :
    (restoreEffect w n ok).records = w.records := by
  cases hs : readStorage w.storage with
  | none => simp [restoreEffect, hs]
  | some s =>
    have hA : s.autoSaved = true := h s hs
    simp only [restoreEffect, hs]
    split
    · split_ifs with hm
      · exact (finalizeFinish_guarded _ ok (by simp [hA])).1
      · rfl
    · simp [hA]

/-- Case analysis of one restore: either it submits nothing, or it submits
exactly one record and leaves a snapshot whose guard is up. -/
lemma restore_cases (w : World) (n : Int) (ok : Bool) :
    (restoreEffect w n ok).records = w.records
    ∨ ((restoreEffect w n ok).records.length = w.records.length + 1
        ∧ safeStorage (restoreEffect w n ok)) := by
  cases hs : readStorage w.storage with
  | none => left; simp [restoreEffect, hs]
  | some s =>
    simp only [restoreEffect, hs]
    split
    · split_ifs with hm
      · rcases finalizeFinish_cases _ ok with h | ⟨h1, _, h3⟩
        · exact Or.inl h
        · exact Or.inr ⟨h1, h3⟩
      · exact Or.inl rfl
    · split_ifs with hf
      · rcases finalizeFinish_cases _ ok with h | ⟨h1, _, h3⟩
        · exact Or.inl h
        · exact Or.inr ⟨h1, h3⟩
      · exact Or.inl rfl

/-- One restore submits at most one record. -/
lemma restore_le (w : World) (n : Int) (ok : Bool) :
    (restoreEffect w n ok).records.length ≤ w.records.length + 1 := by
  rcases restore_cases w n ok with h | ⟨h1, _⟩
  · rw [h]; exact Nat.le_succ _
  · rw [h1]

/-- Case analysis of one tick delivery, in the same shape. -/
lemma tick_cases (w : World) (n : Int) (ok : Bool) :
    (tick w n ok).records = w.records
    ∨ ((tick w n ok).records.length = w.records.length + 1
        ∧ safeStorage (tick w n ok)) := by
  simp only [tick]
  split
  · exact Or.inl rfl
  · split_ifs with hm
    · rcases finalizeFinish_cases _ ok with h | ⟨h1, _, h3⟩
      · exact Or.inl h
      · exact Or.inr ⟨h1, h3⟩
    · exact Or.inl rfl

/-- Running a restore after any step that either submitted nothing or
submitted once while raising the persisted guard keeps the total at one. -/
lemma restore_after_cases {w w₂ : World}
    (h : w₂.records = w.records
      ∨ (w₂.records.length = w.records.length + 1 ∧ safeStorage w₂))
    (n : Int) (ok : Bool) :
    (restoreEffect w₂ n ok).records.length ≤ w.records.length + 1 := by
  rcases h with h | ⟨h1, h2⟩
  · calc (restoreEffect w₂ n ok).records.length
        ≤ w₂.records.length + 1 := restore_le w₂ n ok
      _ = w.records.length + 1 := by rw [h]
  · rw [restore_safe w₂ n ok h2, h1]

/-! ## Theorems for the claims -/

/-- C1: the completion handling submits at most one record per lifecycle,
guarded by `autoSaved`, even when the completion path is triggered twice —
completion handling run twice in a row, reconciliation run twice in a row,
or the tick path followed by the reconciliation path; and a session that
completes naturally after running to zero submits exactly one record with
`duration_minutes = initialMinutes`. -/
theorem completion_submits_at_most_once :
    (∀ (w : World) (ok₁ ok₂ : Bool),
        (finalizeFinish (finalizeFinish w ok₁) ok₂).records.length
          ≤ w.records.length + 1)
    ∧ (∀ (w : World) (n₁ : Int) (ok₁ : Bool) (n₂ : Int) (ok₂ : Bool),
        (restoreEffect (restoreEffect w n₁ ok₁) n₂ ok₂).records.length
          ≤ w.records.length + 1)
    ∧ (∀ (w : World) (n₁ : Int) (ok₁ : Bool) (n₂ : Int) (ok₂ : Bool),
        (restoreEffect (tick w n₁ ok₁) n₂ ok₂).records.length
          ≤ w.records.length + 1)
    ∧ (∀ (w : World) (t now : Int),
        w.engine.endAt = some t → t ≤ now →
        w.engine.autoSaved = false → w.engine.isSaving = false →
        1 ≤ w.engine.initialMinutes →
        ∃ r, (tick w now true).records = w.records ++ [r]
          ∧ r.duration_minutes = w.engine.initialMinutes) := by
  refine ⟨?_, ?_, ?_, ?_⟩
  · intro w ok₁ ok₂
    rcases finalizeFinish_cases w ok₁ with h | ⟨h1, h2, _⟩
    · calc (finalizeFinish (finalizeFinish w ok₁) ok₂).records.length
          ≤ (finalizeFinish w ok₁).records.length + 1 := finalizeFinish_le _ _
        _ = w.records.length + 1 := by rw [h]
    · rw [(finalizeFinish_guarded _ ok₂ h2).1, h1]
  · intro w n₁ ok₁ n₂ ok₂
    exact restore_after_cases (restore_cases w n₁ ok₁) n₂ ok₂
  · intro w n₁ ok₁ n₂ ok₂
    exact restore_after_cases (tick_cases w n₁ ok₁) n₂ ok₂
  · intro w t now hend hle hA hS hI
    have hm : t - now ≤ 0 := by omega
    obtain ⟨r, h1, h2, _⟩ :=
      finalizeFinish_success
        { w with engine :=
            { w.engine with remainingMs := 0, isRunning := false, endAt := none } }
        hA hS hI
    refine ⟨r, ?_, h2⟩
    simp only [tick, hend, if_pos hm]
    exact h1

/-- Witness for C1's conditional part: a 25-minute session started at epoch
0 and ticked at its deadline submits exactly one 25-minute record. -/
theorem completion_submits_at_most_once_witness :
    ∃ r, (tick sampleRunningWorld 1500000 true).records
        = sampleRunningWorld.records ++ [r]
      ∧ r.duration_minutes = sampleRunningWorld.engine.initialMinutes :=
  completion_submits_at_most_once.2.2.2 sampleRunningWorld 1500000 1500000
    (by decide) (by decide) (by decide) (by decide) (by decide)

/-- C6: after a reset, regardless of the prior state, `finished` is false,
`autoSaved` is false, `endAt` is cleared, and `remainingMs` equals
`initialMinutes * 60000`. -/
theorem reset_restores_defaults (w : World) :
    (handleReset w).engine.isFinished = false
    ∧ (handleReset w).engine.autoSaved = false
    ∧ (handleReset w).engine.endAt = none
    ∧ (handleReset w).engine.isRunning = false
    ∧ (handleReset w).engine.remainingMs = w.engine.initialMinutes * 60 * 1000 := by
  refine ⟨rfl, rfl, rfl, rfl, rfl⟩

/-- C9: calling start when `remainingMs = 0` is a no-op — the state never
transitions to Running and no field changes. -/
theorem start_at_zero_is_noop (w : World) (now : Int)
    (h : w.engine.remainingMs = 0) : handleStart w now = w := by
  simp [handleStart, h]

/-- Witness for C9 at a concrete exhausted world. -/
theorem start_at_zero_is_noop_witness :
    handleStart { sampleWorld with engine.remainingMs := 0 } 77
      = { sampleWorld with engine.remainingMs := 0 } :=
  start_at_zero_is_noop _ 77 rfl

/-- C8 counterexample: the claim says `changeDuration(m)` sets
`initialMinutes = m` when not running, but at `m = 1000` the code clamps to
`999`. -/
theorem durationChange_counterexample :
    sampleWorld.engine.isRunning = false
    ∧ (handleDurationChange sampleWorld 1000).engine.initialMinutes ≠ 1000 := by
  refine ⟨rfl, by decide⟩

/-- C8 (amended): `changeDuration(m)` is a no-op while running; when not
running it sets `initialMinutes = clamp(m, 1, 999)`,
`remainingMs = clamp(m, 1, 999) * 60000` and clears `finished` and
`autoSaved`. -/
theorem durationChange_spec (w : World) (m : Int) :
    (w.engine.isRunning = true → handleDurationChange w m = w)
    ∧ (w.engine.isRunning = false →
        (handleDurationChange w m).engine.initialMinutes = clamp m 1 999
        ∧ (handleDurationChange w m).engine.remainingMs = clamp m 1 999 * 60 * 1000
        ∧ (handleDurationChange w m).engine.isFinished = false
        ∧ (handleDurationChange w m).engine.autoSaved = false
        ∧ (handleDurationChange w m).engine.isRunning = false) := by
  constructor
  · intro h; simp [handleDurationChange, h]
  · intro h; simp [handleDurationChange, h, writeStorage]

/-- Witness for C8's amended theorem at concrete inputs. -/
theorem durationChange_spec_witness :
    (handleDurationChange sampleRunningWorld 30 = sampleRunningWorld)
    ∧ ((handleDurationChange sampleWorld 1000).engine.initialMinutes
        = clamp 1000 1 999) :=
  ⟨(durationChange_spec sampleRunningWorld 30).1 (by decide),
   ((durationChange_spec sampleWorld 1000).2 rfl).1⟩

/-- C10: the displayed value rounds the remaining milliseconds up to whole
seconds (characterized by the ceiling bounds), and for non-negative
`remainingMs` the clock reads 00:00 exactly when `remainingMs = 0`. -/
theorem display_rounds_up (ms : Int) (h : 0 ≤ ms) :
    (1000 * ((60 * (msToMinSec ms).1 + (msToMinSec ms).2) - 1) < ms
      ∧ ms ≤ 1000 * (60 * (msToMinSec ms).1 + (msToMinSec ms).2))
    ∧ (msToMinSec ms = (0, 0) ↔ ms = 0) := by
  have h1000 : ∀ a : Int, Int.fdiv a 1000 = a / 1000 :=
    fun a => Int.fdiv_eq_ediv a (by norm_num)
  have h60 : ∀ a : Int, Int.fdiv a 60 = a / 60 :=
    fun a => Int.fdiv_eq_ediv a (by norm_num)
  have hm : ∀ a : Int, Int.emod a 60 = a % 60 := fun _ => rfl
  simp only [msToMinSec, jsCeilDiv, Prod.mk.injEq, h1000, h60, hm]
  have hd : (0:Int) ≤ (ms + 1000 - 1) / 1000 := by omega
  rw [max_eq_right hd]
  refine ⟨⟨by omega, by omega⟩, ?_, ?_⟩
  · rintro ⟨h1, h2⟩; omega
  · rintro rfl; exact ⟨by omega, by omega⟩

/-- Manual save is a strict no-op when the auto-save guard is up. -/
lemma manualSave_guarded (w : World) (ok : Bool)
    (h : w.engine.autoSaved = true) : handleSaveManual w ok = w := by
  simp [handleSaveManual, h]

/-- Manual save is a strict no-op when less than one minute has elapsed. -/
lemma manualSave_short (w : World) (ok : Bool)
    (h : w.engine.initialMinutes * 60 * 1000 - w.engine.remainingMs
          < 60 * 1000) :
    handleSaveManual w ok = w := by
  simp only [handleSaveManual]
  split_ifs <;> rfl

/-- A successful manual save appends exactly one record of
`ceil(elapsedMs / 60000)` minutes and then performs a full reset. -/
lemma manualSave_success (w : World)
    (hA : w.engine.autoSaved = false)
    (h60 : 60 * 1000 ≤ w.engine.initialMinutes * 60 * 1000
            - w.engine.remainingMs) :
    (handleSaveManual w true).records
        = w.records
          ++ [manualSaveRecord { w.engine with isSaving := true }
                (jsCeilDiv
                  (w.engine.initialMinutes * 60 * 1000 - w.engine.remainingMs)
                  60000)]
    ∧ (handleSaveManual w true).engine.isRunning = false
    ∧ (handleSaveManual w true).engine.endAt = none
    ∧ (handleSaveManual w true).engine.isFinished = false
    ∧ (handleSaveManual w true).engine.autoSaved = false
    ∧ (handleSaveManual w true).engine.isSaving = false
    ∧ (handleSaveManual w true).engine.remainingMs
        = w.engine.initialMinutes * 60 * 1000
    ∧ (handleSaveManual w true).engine.initialMinutes
        = w.engine.initialMinutes
    ∧ (handleSaveManual w true).engine.sessionName = "" := by
  have h' : ¬ (w.engine.initialMinutes * 60 * 1000 - w.engine.remainingMs
      < 60000) := by omega
  simp [handleSaveManual, handleReset, writeStorage, mkSnap, hA, h']

/-- C7: manual save is rejected with no state change when `autoSaved` is
already set or when the elapsed time is under one minute; otherwise it
submits one record whose duration is the elapsed time rounded up to whole
minutes and, on success, performs a full reset. -/
theorem manual_save_spec (w : World) (ok : Bool) :
    (w.engine.autoSaved = true → handleSaveManual w ok = w)
    ∧ (w.engine.initialMinutes * 60 * 1000 - w.engine.remainingMs < 60000 →
        handleSaveManual w ok = w)
    ∧ (w.engine.autoSaved = false →
        60000 ≤ w.engine.initialMinutes * 60 * 1000 - w.engine.remainingMs →
        ∃ r, (handleSaveManual w true).records = w.records ++ [r]
          ∧ 60000 * (r.duration_minutes - 1)
              < w.engine.initialMinutes * 60 * 1000 - w.engine.remainingMs
          ∧ w.engine.initialMinutes * 60 * 1000 - w.engine.remainingMs
              ≤ 60000 * r.duration_minutes
          ∧ (handleSaveManual w true).engine.isRunning = false
          ∧ (handleSaveManual w true).engine.endAt = none
          ∧ (handleSaveManual w true).engine.isFinished = false
          ∧ (handleSaveManual w true).engine.autoSaved = false
          ∧ (handleSaveManual w true).engine.remainingMs
              = w.engine.initialMinutes * 60 * 1000) := by
  refine ⟨manualSave_guarded w ok, fun h => manualSave_short w ok (by omega), ?_⟩
  intro hA h60
  obtain ⟨hrec, h1, h2, h3, h4, _, h6, _, _⟩ :=
    manualSave_success w hA (by omega)
  have hbd := jsCeilDiv_bounds_60000
    (w.engine.initialMinutes * 60 * 1000 - w.engine.remainingMs)
  exact ⟨_, hrec, hbd.1, hbd.2, h1, h2, h3, h4, h6⟩

/-- Witness for C7: rejections at a fresh and an already-saved world, and a
successful save of a session paused after exactly one minute. -/
theorem manual_save_spec_witness :
    (handleSaveManual { sampleWorld with engine.autoSaved := true } true
        = { sampleWorld with engine.autoSaved := true })
    ∧ (handleSaveManual sampleWorld true = sampleWorld)
    ∧ (∃ r, (handleSaveManual (handlePause sampleRunningWorld 60000) true).records
          = (handlePause sampleRunningWorld 60000).records ++ [r]
        ∧ 60000 * (r.duration_minutes - 1)
            < (handlePause sampleRunningWorld 60000).engine.initialMinutes * 60 * 1000
              - (handlePause sampleRunningWorld 60000).engine.remainingMs
        ∧ (handlePause sampleRunningWorld 60000).engine.initialMinutes * 60 * 1000
              - (handlePause sampleRunningWorld 60000).engine.remainingMs
            ≤ 60000 * r.duration_minutes
        ∧ (handleSaveManual (handlePause sampleRunningWorld 60000) true).engine.isRunning = false
        ∧ (handleSaveManual (handlePause sampleRunningWorld 60000) true).engine.endAt = none
        ∧ (handleSaveManual (handlePause sampleRunningWorld 60000) true).engine.isFinished = false
        ∧ (handleSaveManual (handlePause sampleRunningWorld 60000) true).engine.autoSaved = false
        ∧ (handleSaveManual (handlePause sampleRunningWorld 60000) true).engine.remainingMs
            = (handlePause sampleRunningWorld 60000).engine.initialMinutes * 60 * 1000) :=
  ⟨(manual_save_spec { sampleWorld with engine.autoSaved := true } true).1 rfl,
   (manual_save_spec sampleWorld true).2.1 (by decide),
   (manual_save_spec (handlePause sampleRunningWorld 60000) true).2.2
     (by decide) (by decide)⟩

/-- C2: during auto-save at completion, `autoSaved` is raised before the
submission call is issued; on submission failure it is reverted to `false`
while `finished` and `remainingMs` stay, and exactly one subsequent manual
retry can succeed. -/
theorem autosave_failure_reverts_guard (w : World)
    (hA : w.engine.autoSaved = false)
    (hS : w.engine.isSaving = false)
    (hI : 1 ≤ w.engine.initialMinutes) :
    (finalizeFinishMark w).engine.autoSaved = true
    ∧ (∀ ok, finalizeFinish w ok = autoSaveAtFinish (finalizeFinishMark w) ok)
    ∧ (finalizeFinish w false).engine.autoSaved = false
    ∧ (finalizeFinish w false).engine.isFinished = true
    ∧ (finalizeFinish w false).engine.remainingMs = w.engine.remainingMs
    ∧ (finalizeFinish w false).records = w.records
    ∧ (60000 ≤ w.engine.initialMinutes * 60 * 1000 - w.engine.remainingMs →
        ∃ r, (handleSaveManual (finalizeFinish w false) true).records
            = w.records ++ [r]
          ∧ ∀ ok₂,
              handleSaveManual (handleSaveManual (finalizeFinish w false) true) ok₂
                = handleSaveManual (finalizeFinish w false) true) := by
  have hI' : ¬ (w.engine.initialMinutes ≤ 0) := by omega
  refine ⟨by simp [finalizeFinishMark, writeStorage, hA],
          fun ok => by simp [finalizeFinish, hA], ?_, ?_, ?_, ?_, ?_⟩
  · simp [finalizeFinish, finalizeFinishMark, autoSaveAtFinish, writeStorage,
      hA, hS, hI']
  · simp [finalizeFinish, finalizeFinishMark, autoSaveAtFinish, writeStorage,
      hA, hS, hI']
  · simp [finalizeFinish, finalizeFinishMark, autoSaveAtFinish, writeStorage,
      hA, hS, hI']
  · simp [finalizeFinish, finalizeFinishMark, autoSaveAtFinish, writeStorage,
      hA, hS, hI']
  · intro h60
    set wf := finalizeFinish w false with hwf
    have hfA : wf.engine.autoSaved = false := by
      simp [hwf, finalizeFinish, finalizeFinishMark, autoSaveAtFinish,
        writeStorage, hA, hS, hI']
    have hfRem : wf.engine.remainingMs = w.engine.remainingMs :=
      (finalizeFinish_engine_fields w false).1
    have hfInit : wf.engine.initialMinutes = w.engine.initialMinutes :=
      (finalizeFinish_engine_fields w false).2.2.2.1
    have hfRecs : wf.records = w.records := by
      simp [hwf, finalizeFinish, finalizeFinishMark, autoSaveAtFinish,
        writeStorage, hA, hS, hI']
    have h60' : 60 * 1000 ≤ wf.engine.initialMinutes * 60 * 1000
        - wf.engine.remainingMs := by rw [hfInit, hfRem]; omega
    obtain ⟨hrec, _, _, _, hA2, _, hRem2, hInit2, _⟩ :=
      manualSave_success wf hfA h60'
    refine ⟨_, by rw [hrec, hfRecs], ?_⟩
    intro ok₂
    apply manualSave_short
    rw [hRem2, hInit2]
    omega

/-- Witness for C2 at a session that ran its full 25 minutes but whose
auto-save submission failed. -/
theorem autosave_failure_reverts_guard_witness :
    ((finalizeFinishMark { sampleWorld with engine.remainingMs := 0 }).engine.autoSaved = true)
    ∧ ((finalizeFinish { sampleWorld with engine.remainingMs := 0 } false).engine.autoSaved = false) :=
  ⟨(autosave_failure_reverts_guard { sampleWorld with engine.remainingMs := 0 }
      rfl rfl (by decide)).1,
   (autosave_failure_reverts_guard { sampleWorld with engine.remainingMs := 0 }
      rfl rfl (by decide)).2.2.1⟩

/-- Completion handling preserves the numeric invariant. -/
lemma engineInv_finalizeFinish (w : World) (ok : Bool)
    (h : engineInv w.engine) : engineInv (finalizeFinish w ok).engine := by
  obtain ⟨h1, h2⟩ := h
  constructor
  · rw [(finalizeFinish_engine_fields w ok).1]; exact h1
  · rw [(finalizeFinish_engine_fields w ok).2.2.2.1]; exact h2

/-- Start preserves the numeric invariant. -/
lemma engineInv_handleStart (w : World) (now : Int)
    (h : engineInv w.engine) : engineInv (handleStart w now).engine := by
  obtain ⟨h1, h2⟩ := h
  unfold engineInv
  simp only [handleStart, writeStorage]
  split_ifs <;> try exact ⟨h1, h2⟩
  all_goals split <;> exact ⟨h1, h2⟩

/-- Pause preserves the numeric invariant. -/
lemma engineInv_handlePause (w : World) (now : Int)
    (h : engineInv w.engine) : engineInv (handlePause w now).engine := by
  obtain ⟨h1, h2⟩ := h
  unfold engineInv
  simp only [handlePause, writeStorage]
  split_ifs <;> try exact ⟨h1, h2⟩
  all_goals split
  all_goals refine ⟨?_, h2⟩
  · exact le_max_left 0 _
  · exact h1

/-- Tick preserves the numeric invariant. -/
lemma engineInv_tick (w : World) (now : Int) (ok : Bool)
    (h : engineInv w.engine) : engineInv (tick w now ok).engine := by
  obtain ⟨h1, h2⟩ := h
  unfold engineInv
  simp only [tick]
  split
  · exact ⟨h1, h2⟩
  · split_ifs with hm
    · have := engineInv_finalizeFinish
        { w with engine :=
            { w.engine with remainingMs := 0, isRunning := false, endAt := none } }
        ok ⟨le_refl 0, h2⟩
      exact this
    · exact ⟨by dsimp only; omega, h2⟩

/-- Reset preserves the numeric invariant. -/
lemma engineInv_handleReset (w : World)
    (h : engineInv w.engine) : engineInv (handleReset w).engine := by
  obtain ⟨h1, h2⟩ := h
  exact ⟨by simp [handleReset, writeStorage]; omega, h2⟩

/-- Duration change establishes the numeric invariant whenever it fires. -/
lemma engineInv_handleDurationChange (w : World) (m : Int)
    (h : engineInv w.engine) : engineInv (handleDurationChange w m).engine := by
  obtain ⟨h1, h2⟩ := h
  unfold engineInv
  simp only [handleDurationChange, writeStorage]
  split_ifs <;> try exact ⟨h1, h2⟩
  constructor
  · show (0:Int) ≤ clamp m 1 999 * 60 * 1000
    unfold clamp; omega
  · show (1:Int) ≤ clamp m 1 999
    unfold clamp; omega

/-- Manual save preserves the numeric invariant. -/
lemma engineInv_handleSaveManual (w : World) (ok : Bool)
    (h : engineInv w.engine) : engineInv (handleSaveManual w ok).engine := by
  obtain ⟨h1, h2⟩ := h
  unfold engineInv
  simp only [handleSaveManual, handleReset, writeStorage]
  split_ifs <;> try exact ⟨h1, h2⟩
  · exact ⟨by dsimp only; omega, h2⟩

/-- Restore establishes the numeric invariant from any snapshot. -/
lemma engineInv_restoreEffect (w : World) (now : Int) (ok : Bool) :
    engineInv (restoreEffect w now ok).engine := by
  unfold engineInv
  cases hs : readStorage w.storage with
  | none =>
    simp only [restoreEffect, hs]
    refine ⟨by norm_num [defaultEngine], by norm_num [defaultEngine]⟩
  | some s =>
    have hc : (1:Int) ≤ clamp s.initialMinutes 1 999 := by unfold clamp; omega
    simp only [restoreEffect, hs]
    split
    · split_ifs with hm
      · exact ⟨le_refl 0, hc⟩
      · exact ⟨by dsimp only; omega, hc⟩
    · split_ifs with hf
      · exact ⟨le_max_left 0 _, hc⟩
      · exact ⟨le_max_left 0 _, hc⟩

/-- C5: `remainingMs` is never negative after any operation of the engine —
start, pause, tick, reset, duration change, completion, manual save — and
restore from an arbitrary (possibly corrupt) snapshot re-establishes the
invariant unconditionally. -/
theorem remaining_time_never_negative (w : World) (now m : Int) (ok : Bool) :
    (engineInv w.engine →
      engineInv (handleStart w now).engine
      ∧ engineInv (handlePause w now).engine
      ∧ engineInv (tick w now ok).engine
      ∧ engineInv (handleReset w).engine
      ∧ engineInv (handleDurationChange w m).engine
      ∧ engineInv (finalizeFinish w ok).engine
      ∧ engineInv (handleSaveManual w ok).engine)
    ∧ engineInv (restoreEffect w now ok).engine := by
  refine ⟨fun h => ⟨engineInv_handleStart w now h, engineInv_handlePause w now h,
    engineInv_tick w now ok h, engineInv_handleReset w h,
    engineInv_handleDurationChange w m h, engineInv_finalizeFinish w ok h,
    engineInv_handleSaveManual w ok h⟩, engineInv_restoreEffect w now ok⟩

/-- Witness for C5 at the fresh default world. -/
theorem remaining_time_never_negative_witness :
    engineInv (handleStart sampleWorld 3).engine
    ∧ engineInv (restoreEffect sampleWorld 3 true).engine :=
  ⟨((remaining_time_never_negative sampleWorld 3 7 true).1
      ⟨by decide, by decide⟩).1,
   (remaining_time_never_negative sampleWorld 3 7 true).2⟩

/-- C3: restore falls back to the default 25-minute Idle state when the
snapshot is absent, unreadable or version-mismatched; a running snapshot is
finished (with one-time completion handling) or resumed according to
`msLeft = endAt - now`; a non-running snapshot restores the stored
`remainingMs` and performs the completion handling exactly when
`finished && !autoSaved`.  The completion handling triggered from restore
closes over the pre-restore render state, so the record it submits carries
the prior engine's `initialMinutes` (the restored `clamp(stored.initialMinutes, 1, 999)`
commits to the engine afterwards but is not what gets submitted). -/
theorem restore_reconciliation (w : World) (now : Int) (ok : Bool) :
    (readStorage w.storage = none →
        (restoreEffect w now ok).engine = defaultEngine w.engine
        ∧ (restoreEffect w now ok).engine.isRunning = false
        ∧ (restoreEffect w now ok).engine.isFinished = false
        ∧ (restoreEffect w now ok).engine.initialMinutes = 25
        ∧ (restoreEffect w now ok).engine.remainingMs = 25 * 60 * 1000
        ∧ (restoreEffect w now ok).engine.endAt = none)
    ∧ (∀ s, w.storage = some s → s.version ≠ STORAGE_VERSION →
        readStorage w.storage = none)
    ∧ (∀ s t, readStorage w.storage = some s → s.isRunning = true →
        s.endAt = some t →
        (t - now ≤ 0 →
          (restoreEffect w now ok).engine.remainingMs = 0
          ∧ (restoreEffect w now ok).engine.isRunning = false
          ∧ (restoreEffect w now ok).engine.isFinished = true
          ∧ (restoreEffect w now ok).engine.initialMinutes
              = clamp s.initialMinutes 1 999
          ∧ (s.autoSaved = false → w.engine.isSaving = false →
              1 ≤ w.engine.initialMinutes →
              ∃ r, (restoreEffect w now true).records = w.records ++ [r]
                ∧ r.duration_minutes = w.engine.initialMinutes
                ∧ (restoreEffect w now true).engine.autoSaved = true)
          ∧ (s.autoSaved = true →
              (restoreEffect w now ok).records = w.records))
        ∧ (0 < t - now →
          (restoreEffect w now ok).engine.isRunning = true
          ∧ (restoreEffect w now ok).engine.remainingMs = t - now
          ∧ (restoreEffect w now ok).engine.endAt = some t
          ∧ (restoreEffect w now ok).records = w.records))
    ∧ (∀ s, readStorage w.storage = some s → s.isRunning = false →
        (restoreEffect w now ok).engine.isRunning = false
        ∧ (restoreEffect w now ok).engine.endAt = none
        ∧ (0 ≤ s.remainingMs →
            (restoreEffect w now ok).engine.remainingMs = s.remainingMs)
        ∧ (s.finished = true → s.autoSaved = false →
            (restoreEffect w now ok).engine.isFinished = true
            ∧ (w.engine.isSaving = false → 1 ≤ w.engine.initialMinutes →
                ∃ r, (restoreEffect w now true).records = w.records ++ [r]
                  ∧ r.duration_minutes = w.engine.initialMinutes))
        ∧ (¬ (s.finished = true ∧ s.autoSaved = false) →
            (restoreEffect w now ok).records = w.records
            ∧ (restoreEffect w now ok).engine.isFinished = s.finished)) := by
  refine ⟨?_, ?_, ?_, ?_⟩
  · intro h
    simp [restoreEffect, h, defaultEngine]
  · intro s hs hv
    simp [readStorage, hs, hv]
  · intro s t hs hrun hend
    constructor
    · intro hm
      simp only [restoreEffect, hs, hrun, hend, if_pos hm]
      refine ⟨?_, ?_, ?_, ?_, ?_, ?_⟩
      · trivial
      · trivial
      · trivial
      · trivial
      · intro hA hS hI
        exact finalizeFinish_success _ hA hS hI
      · intro hA
        exact (finalizeFinish_guarded _ ok (by simp [hA])).1
    · intro hm
      have hc1 : ¬ (t - now ≤ 0) := by omega
      have hc2 : ¬ (t ≤ now) := by omega
      refine ⟨?_, ?_, ?_, ?_⟩ <;>
        simp [restoreEffect, hs, hrun, hend, hc1, hc2]
  · intro s hs hrun
    by_cases hf : s.finished = true ∧ s.autoSaved = false
    · obtain ⟨hf1, hf2⟩ := hf
      have hcond : s.finished = true ∧ (!s.autoSaved) = true := ⟨hf1, by simp [hf2]⟩
      refine ⟨?_, ?_, ?_, ?_, ?_⟩
      · simp only [restoreEffect, hs, hrun, if_pos hcond]
      · simp only [restoreEffect, hs, hrun, if_pos hcond]
        rw [(finalizeFinish_engine_fields _ ok).2.2.1]
      · intro h0
        simp only [restoreEffect, hs, hrun, if_pos hcond]
        omega
      · intro _ _
        refine ⟨?_, ?_⟩
        · simp only [restoreEffect, hs, hrun, if_pos hcond]
        · intro hS hI
          obtain ⟨r, h1, h2, _⟩ := finalizeFinish_success
            { w with engine :=
                { w.engine with autoSaved := s.autoSaved, endAt := none } }
            hf2 hS hI
          refine ⟨r, ?_, h2⟩
          simp only [restoreEffect, hs, hrun, if_pos hcond]
          exact h1
      · intro hn
        exact absurd ⟨hf1, hf2⟩ hn
    · have hcond : ¬ (s.finished = true ∧ (!s.autoSaved) = true) := by
        rintro ⟨a, b⟩
        exact hf ⟨a, by simpa using b⟩
      refine ⟨?_, ?_, ?_, ?_, ?_⟩
      · simp [restoreEffect, hs, hrun, hf]
      · simp [restoreEffect, hs, hrun, hf]
      · intro h0
        simp only [restoreEffect, hs, hrun, if_neg hcond]
        omega
      · intro hf1 hf2
        exact absurd ⟨hf1, hf2⟩ hf
      · intro _
        constructor <;> simp [restoreEffect, hs, hrun, hf]

/-- Witness for C3: restoring with no snapshot at all yields the default
idle engine. -/
theorem restore_reconciliation_witness :
    (restoreEffect sampleWorld 9 true).engine = defaultEngine sampleWorld.engine
    ∧ (restoreEffect sampleWorld 9 true).engine.remainingMs = 25 * 60 * 1000 := by
  have h := (restore_reconciliation sampleWorld 9 true).1 rfl
  exact ⟨h.1, h.2.2.2.2.1⟩

/-- Witness for C10 at a concrete remaining time. -/
theorem display_rounds_up_witness :
    ((1000 * ((60 * (msToMinSec 1500).1 + (msToMinSec 1500).2) - 1) < 1500
      ∧ (1500:Int) ≤ 1000 * (60 * (msToMinSec 1500).1 + (msToMinSec 1500).2))
    ∧ (msToMinSec 1500 = (0, 0) ↔ (1500:Int) = 0)) :=
  display_rounds_up 1500 (by norm_num)

/-! ## Drift freedom (C4) -/

/-- One event preserves the drift invariant: the accumulated wall-clock
running time always complements the authoritative remaining budget. -/
lemma drift_step (w : World) (ev : TEvent) (last spent total : Int)
    (hinv : driftInv w.engine last spent total)
    (hend : ∀ u, w.engine.endAt = some u → ev.time ≤ u) :
    driftInv (applyTEvent w ev).engine ev.time
      (if w.engine.isRunning = true then spent + (ev.time - last) else spent)
      total
    ∧ (applyTEvent w ev).engine.initialMinutes = w.engine.initialMinutes := by
  obtain ⟨hnr, hr⟩ := hinv
  cases ev with
  | start t =>
    simp only [applyTEvent, TEvent.time] at *
    by_cases hrun : w.engine.isRunning = true
    · obtain ⟨u, hU, hEq⟩ := hr hrun
      have htu : t ≤ u := hend u hU
      rw [if_pos hrun]
      by_cases hz : w.engine.remainingMs ≤ 0
      · simp only [handleStart, if_pos hz]
        exact ⟨⟨fun h => absurd hrun (by simp [h]),
                fun _ => ⟨u, hU, by omega⟩⟩, by trivial⟩
      · simp only [handleStart, if_neg hz, writeStorage, hrun, hU,
          Bool.not_true, Bool.false_eq_true, if_false]
        exact ⟨⟨fun h => by simp at h,
                fun _ => ⟨u, rfl, by omega⟩⟩, by trivial⟩
    · have hrun' : w.engine.isRunning = false := by
        cases h : w.engine.isRunning <;> simp_all
      obtain ⟨hN, hR⟩ := hnr hrun'
      rw [if_neg hrun]
      by_cases hz : w.engine.remainingMs ≤ 0
      · simp only [handleStart, if_pos hz]
        exact ⟨⟨fun _ => ⟨hN, hR⟩, fun h => absurd h hrun⟩, by trivial⟩
      · simp only [handleStart, if_neg hz, writeStorage, hrun', hN,
          Bool.not_false, if_true]
        exact ⟨⟨fun h => by simp at h,
                fun _ => ⟨t + w.engine.remainingMs, rfl, by omega⟩⟩, by trivial⟩
  | pause t =>
    simp only [applyTEvent, TEvent.time] at *
    by_cases hrun : w.engine.isRunning = true
    · obtain ⟨u, hU, hEq⟩ := hr hrun
      have htu : t ≤ u := hend u hU
      rw [if_pos hrun]
      simp only [handlePause, hrun, Bool.not_true, Bool.false_eq_true,
        if_false, hU, writeStorage]
      exact ⟨⟨fun _ => ⟨rfl, by dsimp only; omega⟩,
              fun h => by simp at h⟩, by trivial⟩
    · have hrun' : w.engine.isRunning = false := by
        cases h : w.engine.isRunning <;> simp_all
      rw [if_neg hrun]
      simp only [handlePause, hrun', Bool.not_false, if_true]
      exact ⟨⟨fun _ => hnr hrun', fun h => absurd h hrun⟩, by trivial⟩
  | tick t =>
    simp only [applyTEvent, TEvent.time] at *
    cases hE : w.engine.endAt with
    | none =>
      by_cases hrun : w.engine.isRunning = true
      · obtain ⟨u, hU, _⟩ := hr hrun
        rw [hE] at hU
        cases hU
      · have hrun' : w.engine.isRunning = false := by
          cases h : w.engine.isRunning <;> simp_all
        rw [if_neg hrun]
        simp only [tick, hE]
        exact ⟨⟨fun _ => hnr hrun', fun h => absurd h hrun⟩, by trivial⟩
    | some u =>
      have hrun : w.engine.isRunning = true := by
        by_contra hc
        have hrun' : w.engine.isRunning = false := by
          cases h : w.engine.isRunning <;> simp_all
        obtain ⟨hN, _⟩ := hnr hrun'
        rw [hE] at hN
        cases hN
      obtain ⟨u2, hU, hEq⟩ := hr hrun
      rw [hE] at hU
      injection hU with hu
      rw [← hu] at hEq
      have htu : t ≤ u := hend u hE
      rw [if_pos hrun]
      simp only [tick, hE]
      by_cases hz : u - t ≤ 0
      · rw [if_pos hz]
        have hff := finalizeFinish_engine_fields
          { w with engine :=
              { w.engine with remainingMs := 0, isRunning := false, endAt := none } }
          true
        refine ⟨⟨fun _ => ⟨?_, ?_⟩, fun h => ?_⟩, ?_⟩
        · rw [hff.2.2.1]
        · rw [hff.1]; dsimp only; omega
        · rw [hff.2.1] at h; simp at h
        · rw [hff.2.2.2.1]
      · rw [if_neg hz]
        exact ⟨⟨fun h => Bool.noConfusion (hrun.symm.trans h),
                fun _ => ⟨u, rfl, by omega⟩⟩, by trivial⟩

/-- Running a well-formed trace preserves the drift invariant and the
configured duration. -/
lemma runTrace_inv (evs : List TEvent) :
    ∀ (w : World) (last spent total : Int),
      w.engine.initialMinutes * 60 * 1000 = total →
      driftInv w.engine last spent total →
      traceOK w last evs →
      (runTrace w last spent evs).1.engine.initialMinutes * 60 * 1000 = total
      ∧ driftInv (runTrace w last spent evs).1.engine
          (runTrace w last spent evs).2.1 (runTrace w last spent evs).2.2
          total := by
  induction evs with
  | nil =>
    intro w last spent total h1 h2 _
    exact ⟨h1, h2⟩
  | cons ev evs ih =>
    intro w last spent total h1 h2 hok
    obtain ⟨hle, hend, hrest⟩ := hok
    have hstep := drift_step w ev last spent total h2 hend
    simp only [runTrace]
    exact ih (applyTEvent w ev) ev.time _ total
      (by rw [hstep.2]; exact h1) hstep.1 hrest

/-- C4: over any well-formed sequence of start, pause and tick events
without a reset, starting from an idle engine holding its full configured
budget, the wall-clock time spent `Running` equals
`initialMinutes * 60000 - remainingMs` at every sampling point: when the
run ends non-running, `remainingMs` itself complements the spent time; when
it ends running, the deadline `endAt` complements it; and sampling at any
admissible instant `tf` (via the pause path, which recomputes
`max(0, endAt - now)`) observes exactly the wall-clock running time up to
`tf` — no drift accumulates across pause/resume cycles or missed ticks. -/
theorem no_drift (w : World) (t0 : Int) (evs : List TEvent)
    (hidle : w.engine.isRunning = false)
    (hendAt : w.engine.endAt = none)
    (hfull : w.engine.remainingMs = w.engine.initialMinutes * 60 * 1000)
    (hok : traceOK w t0 evs) :
    ((runWorld w t0 evs).engine.isRunning = false →
      (runWorld w t0 evs).engine.initialMinutes * 60 * 1000
          - (runWorld w t0 evs).engine.remainingMs
        = runSpent w t0 evs)
    ∧ ((runWorld w t0 evs).engine.isRunning = true →
      ∃ u, (runWorld w t0 evs).engine.endAt = some u
        ∧ (runWorld w t0 evs).engine.initialMinutes * 60 * 1000
            - (u - runLast w t0 evs)
          = runSpent w t0 evs)
    ∧ (∀ tf, (∀ u, (runWorld w t0 evs).engine.endAt = some u → tf ≤ u) →
        (runWorld w t0 evs).engine.initialMinutes * 60 * 1000
            - (handlePause (runWorld w t0 evs) tf).engine.remainingMs
          = runSpent w t0 evs
            + (if (runWorld w t0 evs).engine.isRunning = true
                then tf - runLast w t0 evs else 0)) := by
  have hinv0 : driftInv w.engine t0 0 (w.engine.initialMinutes * 60 * 1000) := by
    refine ⟨fun _ => ⟨hendAt, by omega⟩, fun h => absurd h (by simp [hidle])⟩
  obtain ⟨hinit, hnr, hr⟩ := runTrace_inv evs w t0 0
    (w.engine.initialMinutes * 60 * 1000) rfl hinv0 hok
  unfold runWorld runSpent runLast
  refine ⟨?_, ?_, ?_⟩
  · intro hrun
    have hrem := hnr hrun
    omega
  · intro hrun
    obtain ⟨u, hU, hEq⟩ := hr hrun
    exact ⟨u, hU, by omega⟩
  · intro tf htf
    by_cases hrun : (runTrace w t0 0 evs).1.engine.isRunning = true
    · obtain ⟨u, hU, hEq⟩ := hr hrun
      have htu : tf ≤ u := htf u hU
      rw [if_pos hrun]
      simp only [handlePause, hrun, Bool.not_true, Bool.false_eq_true,
        if_false, hU, writeStorage]
      omega
    · have hrun' : (runTrace w t0 0 evs).1.engine.isRunning = false := by
        cases h : (runTrace w t0 0 evs).1.engine.isRunning
        · rfl
        · exact absurd h hrun
      have hrem := hnr hrun'
      rw [if_neg hrun]
      simp only [handlePause, hrun', Bool.not_false, if_true]
      omega

/-- Witness for C4: the spec's scenario — a 15-minute timer started at 0,
paused at 5 minutes, resumed at 7 minutes and paused again at 10 minutes —
ends not running with 480000 ms of wall-clock running time and
`remainingMs = 420000`. -/
theorem no_drift_witness :
    (runWorld samplePomodoro15 0 sampleTrace).engine.isRunning = false
    ∧ runSpent samplePomodoro15 0 sampleTrace = 480000
    ∧ (runWorld samplePomodoro15 0 sampleTrace).engine.remainingMs = 420000
    ∧ (runWorld samplePomodoro15 0 sampleTrace).engine.initialMinutes * 60 * 1000
        - (runWorld samplePomodoro15 0 sampleTrace).engine.remainingMs
      = runSpent samplePomodoro15 0 sampleTrace := by
  have hok : traceOK samplePomodoro15 0 sampleTrace := by
    refine ⟨by decide, ?_, by decide, ?_, by decide, ?_, by decide, ?_, trivial⟩
    · intro u h
      have h' : (none : Option Int) = some u := h
      cases h'
    · intro u h
      have h' : (some (900000 : Int)) = some u := h
      injection h' with h''
      simp only [TEvent.time]
      omega
    · intro u h
      have h' : (none : Option Int) = some u := h
      cases h'
    · intro u h
      have h' : (some (1020000 : Int)) = some u := h
      injection h' with h''
      simp only [TEvent.time]
      omega
  refine ⟨by decide, by decide, by decide, ?_⟩
  exact (no_drift samplePomodoro15 0 sampleTrace rfl rfl rfl hok).1 (by decide)

end Pomodoro
